import Mathlib

/-!
Shallow embedding of the google-address-predictions repository: the
address-component mapper (`mappingPlaceToAddress`, `convertPlaceToAddress`,
and the inline mapper of `App.jsx`), the suggestion query controller
(debounce gate, `processResults`) and the selection resolver (`getPlace`).
JavaScript objects are modelled as ordered association lists
`List (String × String)`; the object-spread update is `setField`.
-/

namespace GoogleAddress

/-- A status code returned by the places service; the code compares it
against a single success sentinel `statusOK`. -/
abbrev Status := String

/-- One address component returned by the details fetch: an ordered list of
type labels plus a short and a long textual form
(`AddressComponent` of `@google/maps`). -/
structure AddressComponent where
  types : List String
  short_name : String
  long_name : String
deriving Repr, DecidableEq

/-- Which textual form of a component a mapping entry selects
(`ComponentForm` in `Address.ts`). -/
inductive ComponentForm
  | short_name
  | long_name
deriving Repr, DecidableEq

/-- The read `addressComponent[nameForm]` of the source: selects the short or the
long form of a component. -/
def componentValue (c : AddressComponent) : ComponentForm → String
  | ComponentForm.short_name => c.short_name
  | ComponentForm.long_name => c.long_name

/-- One entry of an `AddressFieldsMapping`: the form to read and the result
field to write (`nameForm` / `resultField` in `Address.ts`). -/
structure FieldSettings where
  nameForm : ComponentForm
  resultField : String
deriving Repr, DecidableEq

/-- The `AddressFieldsMapping` type of the generic hook: a record from type label to
field settings, modelled as an ordered association list. -/
abbrev FieldMapping := List (String × FieldSettings)

/-- Record lookup `mapping[label]`: first entry whose key equals the label,
`none` when absent (JavaScript `undefined`). -/
def lookupLabel {α : Type} : List (String × α) → String → Option α
  | [], _ => none
  | p :: rest, label => if p.1 = label then some p.2 else lookupLabel rest label

/-- JavaScript object update: spread of the old object with one key set.
An existing key keeps its position and gets the new value; a new key is
appended, matching JavaScript property insertion order. -/
def setField (m : List (String × String)) (k v : String) :
    List (String × String) :=
  if m.any (fun p => p.1 = k) then
    m.map (fun p => if p.1 = k then (k, v) else p)
  else m ++ [(k, v)]

/-- Property read `m[k]` on the modelled object. -/
def lookupField : List (String × String) → String → Option String
  | [], _ => none
  | p :: rest, k => if p.1 = k then some p.2 else lookupField rest k

/-- One step of the reducer inside `mappingPlaceToAddress`
(src/useGoogleAutocompleteSuggestions.ts lines 24-38): take the first type
label (`types[0]`), look it up in the mapping, and when an entry exists
overwrite the result field with the component's value in the configured
form; otherwise return the accumulator unchanged.  An empty `types` list
gives `undefined` as label, which the mapping cannot contain, so the
component is skipped. -/
def mapStep (mapping : FieldMapping) (result : List (String × String))
    (c : AddressComponent) : List (String × String) :=
  match c.types.head? with
  | none => result
  | some t =>
    match lookupLabel mapping t with
    | none => result
    | some fs => setField result fs.resultField (componentValue c fs.nameForm)

/-- The generic mapper `mappingPlaceToAddress` of
src/useGoogleAutocompleteSuggestions.ts: a `reduce` over the components
starting from the empty object. -/
def mappingPlaceToAddress (mapping : FieldMapping)
    (components : List AddressComponent) : List (String × String) :=
  components.foldl (mapStep mapping) []

/-- The five target fields of the canonical address
(`AddressField` in `Address.ts`). -/
inductive AddressField
  | house
  | street
  | city
  | state
  | zip
deriving Repr, DecidableEq

/-- The fixed-shape address record (`Address` in `Address.ts`). -/
structure Address where
  house : String
  street : String
  city : String
  state : String
  zip : String
deriving Repr, DecidableEq

/-- Entry of the typed mapping of `Address.ts`: form plus typed result
field. -/
structure TypedFieldSettings where
  nameForm : ComponentForm
  resultField : AddressField
deriving Repr, DecidableEq

/-- The `addressFieldsMapping` constant of `Address.ts`: the canonical typed mapping. -/
def addressFieldsMapping : List (String × TypedFieldSettings) :=
  [("street_number", ⟨ComponentForm.short_name, AddressField.house⟩),
   ("route", ⟨ComponentForm.short_name, AddressField.street⟩),
   ("locality", ⟨ComponentForm.long_name, AddressField.city⟩),
   ("administrative_area_level_1", ⟨ComponentForm.short_name, AddressField.state⟩),
   ("postal_code", ⟨ComponentForm.short_name, AddressField.zip⟩)]

/-- Structure update `result[resultField] = value` on the typed address. -/
def setAddressField (a : Address) : AddressField → String → Address
  | AddressField.house, v => { a with house := v }
  | AddressField.street, v => { a with street := v }
  | AddressField.city, v => { a with city := v }
  | AddressField.state, v => { a with state := v }
  | AddressField.zip, v => { a with zip := v }

/-- The typed `convertPlaceToAddress` variant: a `reduce` over the
components whose initial accumulator already carries all five fields as
empty strings. -/
def convertPlaceToAddress (components : List AddressComponent) : Address :=
  components.foldl
    (fun result c =>
      match c.types.head? with
      | none => result
      | some t =>
        match lookupLabel addressFieldsMapping t with
        | none => result
        | some fs => setAddressField result fs.resultField (componentValue c fs.nameForm))
    ⟨"", "", "", "", ""⟩

/-- The canonical mapping as used by the generic mapper (the
`addressFieldsMapping` constant of the generic App variant, and the inline
`fieldsMapping` of `App.jsx`). -/
def canonicalMapping : FieldMapping :=
  [("street_number", ⟨ComponentForm.short_name, "house"⟩),
   ("route", ⟨ComponentForm.short_name, "street"⟩),
   ("locality", ⟨ComponentForm.long_name, "city"⟩),
   ("administrative_area_level_1", ⟨ComponentForm.short_name, "state"⟩),
   ("postal_code", ⟨ComponentForm.short_name, "zip"⟩)]

/-- The defaulting pass of `App.jsx`'s `convertPlaceToAddress`: for each
target field of the mapping, `if (!result[field]) result[field] = ''`, i.e.
assign the empty string when the property is absent (undefined) or already
the empty string (both falsy). -/
def defaultStep (r : List (String × String)) (field : String) :
    List (String × String) :=
  if (lookupField r field).getD "" = "" then setField r field "" else r

/-- The target fields of the canonical mapping in key order, as produced by
`Object.keys(fieldsMapping).reduce(...)` in `App.jsx`. -/
def canonicalTargets : List String :=
  canonicalMapping.map (fun p => p.2.resultField)

/-- The `convertPlaceToAddress` function of `src/App.jsx` (lines 9-53): fill an
initially empty object by the loop over components, then default every
target field of the inline canonical mapping to the empty string when it is
falsy. -/
def convertPlaceToAddressJs (components : List AddressComponent) :
    List (String × String) :=
  canonicalTargets.foldl defaultStep
    (components.foldl (mapStep canonicalMapping) [])

/-- A suggestion shown in the list: `placeId` and `description`. -/
structure Suggestion where
  placeId : String
  description : String
deriving Repr, DecidableEq

/-- A raw prediction from `getPlacePredictions`: `place_id` and
`description`. -/
structure RawPrediction where
  place_id : String
  description : String
deriving Repr, DecidableEq

/-- The projection applied inside `processResults`:
`result => (placeId: result.place_id, description: result.description)`. -/
def toSuggestion (r : RawPrediction) : Suggestion :=
  ⟨r.place_id, r.description⟩

/-- The `processResults` callback of the hook (src/useGoogleAutocompleteSuggestions.ts
lines 120-129): when the services are initialized (`ready`) and the status
equals the success sentinel, replace the suggestion list wholesale with the
mapped results; otherwise leave the state exactly as it was.  The function
does nothing else: no error is thrown or surfaced on a non-success
status. -/
def processResults (ready : Bool) (statusOK : Status)
    (suggestions : List Suggestion) (results : List RawPrediction)
    (status : Status) : List Suggestion :=
  if ready = true ∧ statusOK = status then results.map toSuggestion
  else suggestions

/-- A prediction response in flight: the sequence number of the request it
answers (issue order), the raw results, and the status. -/
structure PredictResponse where
  seq : Nat
  results : List RawPrediction
  status : Status
deriving Repr, DecidableEq

/-- Arrival of one response at the controller: `processResults` is invoked
with the response's results and status.  The response's request identity
(`seq`) is not consulted anywhere — the code carries no staleness tag. -/
def applyResponse (ready : Bool) (statusOK : Status)
    (suggestions : List Suggestion) (r : PredictResponse) : List Suggestion :=
  processResults ready statusOK suggestions r.results r.status

/-- The suggestion state after a list of responses has arrived, in arrival
order, starting from the initial empty list. -/
def finalSuggestions (ready : Bool) (statusOK : Status)
    (arrivals : List PredictResponse) : List Suggestion :=
  arrivals.foldl (applyResponse ready statusOK) []

/-- Controller state owned by the hook: the echoed input text and the
current suggestion list. -/
structure ControllerState where
  inputText : String
  suggestions : List Suggestion
deriving Repr, DecidableEq

/-- The `setInput` operation: records the new text immediately; the suggestion list is
not touched by the setter itself. -/
def setInput (s : ControllerState) (text : String) : ControllerState :=
  { s with inputText := text }

/-- The request issued by `getPlacePredictions`: country restriction, type
filter and input text. -/
structure PredictRequest where
  country : String
  typeFilter : List String
  input : String
deriving Repr, DecidableEq

/-- The debounce timer callback (src/useGoogleAutocompleteSuggestions.ts
lines 138-149): when the services are initialized and
`input.length > minLength`, issue a predict request tagged with the current
input; otherwise do nothing.  The state is returned unchanged in both
cases — the callback never writes `suggestions`. -/
def timerFire (ready : Bool) (minLength : Nat) (country : String)
    (s : ControllerState) : ControllerState × Option PredictRequest :=
  if ready = true ∧ minLength < s.inputText.length then
    (s, some ⟨country, ["address"], s.inputText⟩)
  else (s, none)

/-- One `setInput` call with its (abstract, millisecond) timestamp. -/
structure SetInputEvent where
  time : Nat
  text : String
deriving Repr, DecidableEq

/-- Which debounce timers actually fire: each `setInput` clears the
previously scheduled timeout and schedules a new one `debounce` later, so
the timer set at event `e1` fires only when the next event arrives at
`e1.time + debounce` or later; the timer of the last event always fires
(no further event cancels it). -/
def scheduledFires (debounce : Nat) : List SetInputEvent → List SetInputEvent
  | [] => []
  | [e] => [e]
  | e1 :: e2 :: rest =>
    if e2.time < e1.time + debounce then scheduledFires debounce (e2 :: rest)
    else e1 :: scheduledFires debounce (e2 :: rest)

/-- The query texts of the predict calls issued by a sequence of `setInput`
events: the timers that fire, filtered by the readiness and length gate of
the timer callback. -/
def predictCalls (ready : Bool) (minLength debounce : Nat)
    (events : List SetInputEvent) : List String :=
  (scheduledFires debounce events).filterMap
    (fun e => if ready = true ∧ minLength < e.text.length then some e.text
              else none)

/-- The details record passed to the `getDetails` callback on success
(`PlaceDetailsResult`, restricted to the one requested field). -/
structure PlaceDetailsResult where
  address_components : List AddressComponent
deriving Repr, DecidableEq

/-- What `getDetails` delivers to its callback: on a failed lookup the
service passes a null place together with a non-success status; the code's
callback binds only the place and never inspects the status. -/
structure DetailsResponse where
  place : Option PlaceDetailsResult
  status : Status
deriving Repr, DecidableEq

/-- Observable outcome of one `getPlace` call: whether a details fetch was
issued, the list of consumer (`cb`) invocations with their argument, and
whether the callback crashed (reading `address_components` of a null
place throws before `cb` is ever reached). -/
structure GetPlaceOutcome where
  fetchIssued : Bool
  consumerCalls : List (List (String × String))
  crashed : Bool
deriving Repr, DecidableEq

/-- The `getPlace` operation of the hook (src/useGoogleAutocompleteSuggestions.ts lines
156-168): when the services are not initialized, return without doing
anything; otherwise issue the details fetch and, on response, pipe the
place through the mapper and hand the result to the consumer.  The
response status is ignored by the callback; a null place (failed lookup)
makes the property access throw, so the consumer is not invoked. -/
def getPlace (ready : Bool) (mapping : FieldMapping)
    (response : DetailsResponse) : GetPlaceOutcome :=
  if ready = true then
    match response.place with
    | some p => ⟨true, [mappingPlaceToAddress mapping p.address_components], false⟩
    | none => ⟨true, [], true⟩
  else ⟨false, [], false⟩

/-- A component writes a given result field: its first type label is mapped
and the entry's target field is that field. -/
def writesField (mapping : FieldMapping) (c : AddressComponent)
    (k : String) : Prop :=
  ∃ t fs, c.types.head? = some t ∧ lookupLabel mapping t = some fs ∧
    fs.resultField = k

/-! Helper lemmas about the modelled JavaScript object operations. -/

theorem lookupField_map_update (m : List (String × String)) (k v : String)
    (h : ∃ p ∈ m, p.1 = k) :
    lookupField (m.map (fun p => if p.1 = k then (k, v) else p)) k = some v := by
  induction m with
  | nil => simp at h
  | cons hd tl ih =>
    by_cases hhd : hd.1 = k
    · simp [lookupField, hhd]
    · obtain ⟨p, hp, hpk⟩ := h
      have hmem : p ∈ tl := by
        rcases List.mem_cons.mp hp with h1 | h1
        · exact absurd (h1 ▸ hpk) hhd
        · exact h1
      simpa [lookupField, hhd] using ih ⟨p, hmem, hpk⟩

theorem lookupField_map_other (m : List (String × String)) (k v k' : String)
    (h : k' ≠ k) :
    lookupField (m.map (fun p => if p.1 = k then (k, v) else p)) k' =
      lookupField m k' := by
  induction m with
  | nil => rfl
  | cons hd tl ih =>
    by_cases hhd : hd.1 = k
    · have : k ≠ k' := fun he => h he.symm
      simp [lookupField, hhd, this]
      exact ih
    · by_cases hk' : hd.1 = k'
      · simp [lookupField, hhd, hk', h]
      · simp [lookupField, hhd, hk']
        exact ih

theorem lookupField_append_new (m : List (String × String)) (k v : String)
    (h : ∀ p ∈ m, p.1 ≠ k) :
    lookupField (m ++ [(k, v)]) k = some v := by
  induction m with
  | nil => simp [lookupField]
  | cons hd tl ih =>
    have hhd : hd.1 ≠ k := h hd (List.mem_cons_self hd tl)
    simpa [lookupField, hhd] using ih (fun p hp => h p (List.mem_cons_of_mem hd hp))

theorem lookupField_append_other (m : List (String × String)) (k v k' : String)
    (h : k' ≠ k) :
    lookupField (m ++ [(k, v)]) k' = lookupField m k' := by
  induction m with
  | nil =>
    have : k ≠ k' := fun he => h he.symm
    simp [lookupField, this]
  | cons hd tl ih =>
    by_cases hk' : hd.1 = k'
    · simp [lookupField, hk']
    · simp [lookupField, hk']
      exact ih

theorem lookupField_setField_self (m : List (String × String)) (k v : String) :
    lookupField (setField m k v) k = some v := by
  unfold setField
  by_cases h : m.any (fun p => p.1 = k)
  · rw [if_pos h]
    refine lookupField_map_update m k v ?_
    simpa using List.any_eq_true.mp h
  · rw [if_neg h]
    refine lookupField_append_new m k v ?_
    intro p hp
    have := List.any_eq_false.mp (Bool.eq_false_iff.mpr h) p hp
    simpa using this

theorem lookupField_setField_other (m : List (String × String))
    (k v k' : String) (h : k' ≠ k) :
    lookupField (setField m k v) k' = lookupField m k' := by
  unfold setField
  by_cases hc : m.any (fun p => p.1 = k)
  · rw [if_pos hc]
    exact lookupField_map_other m k v k' h
  · rw [if_neg hc]
    exact lookupField_append_other m k v k' h

theorem isSome_lookupField_setField (m : List (String × String))
    (k v k' : String) (h : (lookupField m k').isSome) :
    (lookupField (setField m k v) k').isSome := by
  by_cases he : k' = k
  · subst he
    rw [lookupField_setField_self]
    rfl
  · rw [lookupField_setField_other m k v k' he]
    exact h

theorem mem_keys_setField (m : List (String × String)) (k v k' : String)
    (h : k' ∈ (setField m k v).map Prod.fst) :
    k' ∈ m.map Prod.fst ∨ k' = k := by
  unfold setField at h
  by_cases hc : m.any (fun p => p.1 = k)
  · rw [if_pos hc] at h
    left
    rw [List.map_map] at h
    have hfst : (Prod.fst ∘ fun p : String × String =>
        if p.1 = k then (k, v) else p) = Prod.fst := by
      funext p
      by_cases hp : p.1 = k <;> simp [hp]
    rwa [hfst] at h
  · rw [if_neg hc] at h
    rw [List.map_append, List.mem_append] at h
    rcases h with h | h
    · exact Or.inl h
    · right
      simpa using h

theorem isSome_lookupField_defaultStep_self (r : List (String × String))
    (f : String) : (lookupField (defaultStep r f) f).isSome := by
  unfold defaultStep
  by_cases h : (lookupField r f).getD "" = ""
  · rw [if_pos h, lookupField_setField_self]
    rfl
  · rw [if_neg h]
    cases hl : lookupField r f with
    | none =>
      rw [hl] at h
      simp at h
    | some v => rfl

theorem isSome_lookupField_defaultStep (r : List (String × String))
    (f k : String) (h : (lookupField r k).isSome) :
    (lookupField (defaultStep r f) k).isSome := by
  unfold defaultStep
  by_cases hf : (lookupField r f).getD "" = ""
  · rw [if_pos hf]
    exact isSome_lookupField_setField r f "" k h
  · rw [if_neg hf]
    exact h

theorem isSome_foldl_defaultStep_of_isSome (fields : List String) :
    ∀ (r : List (String × String)) (k : String), (lookupField r k).isSome →
      (lookupField (fields.foldl defaultStep r) k).isSome := by
  induction fields with
  | nil => intro r k h; exact h
  | cons f rest ih =>
    intro r k h
    exact ih (defaultStep r f) k (isSome_lookupField_defaultStep r f k h)

theorem isSome_foldl_defaultStep_of_mem (fields : List String) :
    ∀ (r : List (String × String)) (k : String), k ∈ fields →
      (lookupField (fields.foldl defaultStep r) k).isSome := by
  induction fields with
  | nil => intro r k h; simp at h
  | cons f rest ih =>
    intro r k h
    rcases List.mem_cons.mp h with h | h
    · subst h
      exact isSome_foldl_defaultStep_of_isSome rest (defaultStep r k) k
        (isSome_lookupField_defaultStep_self r k)
    · exact ih (defaultStep r f) k h

/-! The claims. -/

/-- C2 (amended): the typed mapper `convertPlaceToAddress` applied to the
empty component list returns all five target fields set to the empty
string, and the `App.jsx` mapper's output always contains every target
field of the canonical mapping; the generic `mappingPlaceToAddress`,
however, performs no initialization — on the empty component list it
returns the empty record. -/
theorem mapper_completeness (comps : List AddressComponent) (k : String)
    (hk : k ∈ canonicalTargets) :
    convertPlaceToAddress [] = ⟨"", "", "", "", ""⟩ ∧
    (lookupField (convertPlaceToAddressJs comps) k).isSome ∧
    mappingPlaceToAddress canonicalMapping [] = [] := by
  refine ⟨rfl, ?_, rfl⟩
  unfold convertPlaceToAddressJs
  exact isSome_foldl_defaultStep_of_mem canonicalTargets
    (comps.foldl (mapStep canonicalMapping) []) k hk

/-- C2 witness: instantiation of the completeness theorem at the field
`state` and a one-component list. -/
theorem mapper_completeness_witness :
    ("state" ∈ canonicalTargets) ∧
    (lookupField
      (convertPlaceToAddressJs [⟨["route"], "Baker St", "Baker Street"⟩])
      "state").isSome :=
  ⟨by decide,
   (mapper_completeness [⟨["route"], "Baker St", "Baker Street"⟩] "state"
     (by decide)).2.1⟩

/-- C2 counterexample: the generic mapper applied to the empty component
list returns the empty record, in which the target field `house` is not
present at all, let alone set to the empty string. -/
theorem mapper_completeness_counterexample :
    mappingPlaceToAddress canonicalMapping [] = [] ∧
    ¬ lookupField (mappingPlaceToAddress canonicalMapping []) "house"
        = some "" := by
  exact ⟨rfl, by decide⟩

/-- C3: the `App.jsx` mapper applied to the three Baker-Street components
under the canonical (inline) mapping yields exactly the record with house
`221B`, street `Baker St`, city `London`, and empty state and zip. -/
theorem baker_street_projection :
    convertPlaceToAddressJs
      [⟨["street_number"], "221B", "221B"⟩,
       ⟨["route"], "Baker St", "Baker Street"⟩,
       ⟨["locality"], "London", "London"⟩] =
    [("house", "221B"), ("street", "Baker St"), ("city", "London"),
     ("state", ""), ("zip", "")] := by decide

/-- C4: the timer callback issues a predict request exactly when the
services are ready and the input length strictly exceeds `minLength`; in
particular an input of exactly `minLength` characters never issues a
request, and one of `minLength + 1` characters does when ready. -/
theorem minLength_strict_gate (ready : Bool) (minLength : Nat)
    (country : String) (s : ControllerState) :
    ((timerFire ready minLength country s).2 ≠ none ↔
      ready = true ∧ minLength < s.inputText.length) ∧
    (s.inputText.length = minLength →
      (timerFire ready minLength country s).2 = none) ∧
    (ready = true → s.inputText.length = minLength + 1 →
      (timerFire ready minLength country s).2 =
        some ⟨country, ["address"], s.inputText⟩) := by
  refine ⟨?_, ?_, ?_⟩
  · by_cases h : ready = true ∧ minLength < s.inputText.length <;>
      simp [timerFire, h]
  · intro hlen
    have h : ¬ (ready = true ∧ minLength < s.inputText.length) := by
      rintro ⟨-, hlt⟩
      omega
    simp [timerFire, h]
  · intro hr hlen
    have h : ready = true ∧ minLength < s.inputText.length := ⟨hr, by omega⟩
    simp [timerFire, h]

/-- C4 witness: at the default minimum length five, the five-character
input issues nothing and the six-character input issues the request. -/
theorem minLength_strict_gate_witness :
    (("12345" : String).length = 5 ∧
      (timerFire true 5 "us" ⟨"12345", []⟩).2 = none) ∧
    (("123456" : String).length = 5 + 1 ∧
      (timerFire true 5 "us" ⟨"123456", []⟩).2 =
        some ⟨"us", ["address"], "123456"⟩) :=
  ⟨⟨rfl, (minLength_strict_gate true 5 "us" ⟨"12345", []⟩).2.1 rfl⟩,
   ⟨rfl, (minLength_strict_gate true 5 "us" ⟨"123456", []⟩).2.2 rfl rfl⟩⟩

/-- C6: a response whose status differs from the success sentinel leaves
the suggestion list exactly as it was; `processResults` returns the old
list and raises nothing. -/
theorem nonsuccess_leaves_list (ready : Bool) (ok : Status)
    (suggestions : List Suggestion) (results : List RawPrediction)
    (status : Status) (h : status ≠ ok) :
    processResults ready ok suggestions results status = suggestions := by
  have hcond : ¬ (ready = true ∧ ok = status) := by
    rintro ⟨-, he⟩
    exact h he.symm
  simp [processResults, hcond]

/-- C6 witness: a `ZERO_RESULTS` status leaves a concrete one-element
suggestion list untouched. -/
theorem nonsuccess_leaves_list_witness :
    ("ZERO_RESULTS" : Status) ≠ "OK" ∧
    processResults true "OK" [⟨"p1", "A Street"⟩] [⟨"p2", "B Street"⟩]
      "ZERO_RESULTS" = [⟨"p1", "A Street"⟩] :=
  ⟨by decide,
   nonsuccess_leaves_list true "OK" [⟨"p1", "A Street"⟩] [⟨"p2", "B Street"⟩]
     "ZERO_RESULTS" (by decide)⟩

/-- C7: calling `getPlace` while the services are not initialized issues no
details fetch and never invokes the consumer; when they are initialized, a
failed lookup (null place, whatever the status) also never invokes the
consumer — the callback throws on the null place before reaching it. -/
theorem selection_readiness_gating :
    (∀ (mapping : FieldMapping) (response : DetailsResponse),
      getPlace false mapping response = ⟨false, [], false⟩) ∧
    (∀ (mapping : FieldMapping) (status : Status),
      getPlace true mapping ⟨none, status⟩ = ⟨true, [], true⟩) :=
  ⟨fun _ _ => rfl, fun _ _ => rfl⟩

/-- C9: when the adapter is not ready or the input length does not exceed
`minLength`, the timer callback issues no request and returns the
controller state — suggestions included — exactly unchanged, while
`setInput` always records the new text immediately without touching the
suggestion list. -/
theorem gated_fire_frame (ready : Bool) (minLength : Nat) (country : String)
    (s : ControllerState)
    (h : ready = false ∨ s.inputText.length ≤ minLength) :
    timerFire ready minLength country s = (s, none) ∧
    ∀ t, (setInput s t).inputText = t ∧
      (setInput s t).suggestions = s.suggestions := by
  constructor
  · have hcond : ¬ (ready = true ∧ minLength < s.inputText.length) := by
      rcases h with h | h
      · rintro ⟨hr, -⟩
        rw [h] at hr
        exact Bool.false_ne_true hr
      · rintro ⟨-, hlt⟩
        omega
    simp [timerFire, hcond]
  · intro t
    exact ⟨rfl, rfl⟩

/-- C9 witness: with the services not ready, a fire over a long input
leaves a concrete state with one suggestion untouched, and `setInput`
echoes the new text. -/
theorem gated_fire_frame_witness :
    ((false = false ∨ ("1234567" : String).length ≤ 5) ∧
      timerFire false 5 "us" ⟨"1234567", [⟨"p1", "A Street"⟩]⟩ =
        (⟨"1234567", [⟨"p1", "A Street"⟩]⟩, none)) ∧
    (setInput ⟨"1234567", [⟨"p1", "A Street"⟩]⟩ "new text").inputText =
      "new text" :=
  ⟨⟨Or.inl rfl,
    (gated_fire_frame false 5 "us" ⟨"1234567", [⟨"p1", "A Street"⟩]⟩
      (Or.inl rfl)).1⟩,
   ((gated_fire_frame false 5 "us" ⟨"1234567", [⟨"p1", "A Street"⟩]⟩
      (Or.inl rfl)).2 "new text").1⟩

/-- C1 counterexample: request B (sequence 1, issued after A) resolves
first with its results; A's response (sequence 0) then arrives and is
installed by `processResults`, which never consults the request identity —
the final suggestion list is A's, not B's. -/
theorem staleness_counterexample :
    finalSuggestions true "OK"
      [⟨1, [⟨"p-b", "B Street"⟩], "OK"⟩, ⟨0, [⟨"p-a", "A Street"⟩], "OK"⟩] =
      [⟨"p-a", "A Street"⟩] ∧
    ([⟨"p-a", "A Street"⟩] : List Suggestion) ≠
      ([⟨"p-b", "B Street"⟩] : List RawPrediction).map toSuggestion :=
  ⟨by decide, by decide⟩

/-- C1 (amended): the suggestion list corresponds to the most recently
*arrived* successful response, not the most recently issued request:
whatever arrived before, a success response arriving last — stale or not —
determines the displayed list, because `processResults` carries no
staleness tag. -/
theorem suggestions_follow_last_arrival (ok : Status)
    (arrivals : List PredictResponse) (r : PredictResponse)
    (h : r.status = ok) :
    finalSuggestions true ok (arrivals ++ [r]) =
      r.results.map toSuggestion := by
  have hstep : finalSuggestions true ok (arrivals ++ [r]) =
      applyResponse true ok (finalSuggestions true ok arrivals) r := by
    simp [finalSuggestions, List.foldl_append]
  rw [hstep]
  unfold applyResponse processResults
  rw [if_pos ⟨rfl, h.symm⟩]

/-- C1 witness: the stale success response for request 0 arrives after the
response for request 1 and its mapped results are displayed. -/
theorem suggestions_follow_last_arrival_witness :
    (⟨0, [⟨"p-a", "A Street"⟩], "OK"⟩ : PredictResponse).status = "OK" ∧
    finalSuggestions true "OK"
        ([⟨1, [⟨"p-b", "B Street"⟩], "OK"⟩] ++
          [⟨0, [⟨"p-a", "A Street"⟩], "OK"⟩]) =
      ([⟨"p-a", "A Street"⟩] : List RawPrediction).map toSuggestion :=
  ⟨rfl,
   suggestions_follow_last_arrival "OK" [⟨1, [⟨"p-b", "B Street"⟩], "OK"⟩]
     ⟨0, [⟨"p-a", "A Street"⟩], "OK"⟩ rfl⟩

/-- When every event arrives within less than the debounce interval of its
predecessor, only the timer of the last event survives. -/
theorem scheduledFires_dense (debounce : Nat) :
    ∀ events : List SetInputEvent,
      events.Chain' (fun a b => b.time < a.time + debounce) →
      scheduledFires debounce events = events.getLast?.toList
  | [], _ => rfl
  | [_], _ => rfl
  | e1 :: e2 :: rest, h => by
    rw [List.chain'_cons] at h
    have ih := scheduledFires_dense debounce (e2 :: rest) h.2
    rw [List.getLast?_cons_cons, ← ih]
    simp [scheduledFires, h.1]

/-- C5: any number of `setInput` calls each landing within less than
`debounceMs` of the previous one issue at most one predict call, and any
call that is issued queries the text of the last event — every earlier
timer is cancelled by the next call. -/
theorem debounce_coalescing (ready : Bool) (minLength debounce : Nat)
    (events : List SetInputEvent)
    (h : events.Chain' (fun a b => b.time < a.time + debounce)) :
    (predictCalls ready minLength debounce events).length ≤ 1 ∧
    ∀ q ∈ predictCalls ready minLength debounce events,
      events.getLast?.map SetInputEvent.text = some q := by
  have hs := scheduledFires_dense debounce events h
  unfold predictCalls
  rw [hs]
  cases hl : events.getLast? with
  | none => simp
  | some e =>
    by_cases hc : ready = true ∧ minLength < e.text.length
    · simp [Option.toList, hc]
    · simp [Option.toList, hc]

/-- C5 witness: three keystrokes 100 and 150 milliseconds apart under a
500-millisecond debounce result in exactly one call for the last text. -/
theorem debounce_coalescing_witness :
    (([⟨0, "123 Main"⟩, ⟨100, "123 Main S"⟩, ⟨250, "123 Main St"⟩] :
        List SetInputEvent).Chain' (fun a b => b.time < a.time + 500)) ∧
    (predictCalls true 5 500
        [⟨0, "123 Main"⟩, ⟨100, "123 Main S"⟩,
         ⟨250, "123 Main St"⟩]).length ≤ 1 ∧
    ∀ q ∈ predictCalls true 5 500
        [⟨0, "123 Main"⟩, ⟨100, "123 Main S"⟩, ⟨250, "123 Main St"⟩],
      ([⟨0, "123 Main"⟩, ⟨100, "123 Main S"⟩, ⟨250, "123 Main St"⟩] :
          List SetInputEvent).getLast?.map SetInputEvent.text = some q :=
  ⟨List.chain'_cons.mpr ⟨by decide, List.chain'_cons.mpr
     ⟨by decide, List.chain'_singleton _⟩⟩,
   debounce_coalescing true 5 500
     [⟨0, "123 Main"⟩, ⟨100, "123 Main S"⟩, ⟨250, "123 Main St"⟩]
     (List.chain'_cons.mpr ⟨by decide, List.chain'_cons.mpr
       ⟨by decide, List.chain'_singleton _⟩⟩)⟩

/-- Case equation: a component with no type label at all is skipped. -/
theorem mapStep_none (mapping : FieldMapping) (r : List (String × String))
    (c : AddressComponent) (h : c.types.head? = none) :
    mapStep mapping r c = r := by
  simp [mapStep, h]

/-- Case equation: a component whose first label is absent from the mapping
is skipped. -/
theorem mapStep_unmapped (mapping : FieldMapping) (r : List (String × String))
    (c : AddressComponent) (t : String) (ht : c.types.head? = some t)
    (hl : lookupLabel mapping t = none) : mapStep mapping r c = r := by
  simp [mapStep, ht, hl]

/-- Case equation: a component whose first label is mapped overwrites the
entry's result field with the configured form of the component. -/
theorem mapStep_write (mapping : FieldMapping) (r : List (String × String))
    (c : AddressComponent) (t : String) (fs : FieldSettings)
    (ht : c.types.head? = some t) (hl : lookupLabel mapping t = some fs) :
    mapStep mapping r c =
      setField r fs.resultField (componentValue c fs.nameForm) := by
  simp [mapStep, ht, hl]

/-- The reducer step depends on a component only through its first type
label and its two textual forms. -/
theorem mapStep_congr (mapping : FieldMapping) (r : List (String × String))
    (c c' : AddressComponent) (h1 : c.types.head? = c'.types.head?)
    (h2 : c.short_name = c'.short_name) (h3 : c.long_name = c'.long_name) :
    mapStep mapping r c = mapStep mapping r c' := by
  cases hh : c.types.head? with
  | none =>
    rw [mapStep_none mapping r c hh, mapStep_none mapping r c' (h1.symm.trans hh)]
  | some t =>
    have hh' : c'.types.head? = some t := h1.symm.trans hh
    cases hl : lookupLabel mapping t with
    | none =>
      rw [mapStep_unmapped mapping r c t hh hl,
        mapStep_unmapped mapping r c' t hh' hl]
    | some fs =>
      rw [mapStep_write mapping r c t fs hh hl,
        mapStep_write mapping r c' t fs hh' hl]
      have hval : componentValue c fs.nameForm = componentValue c' fs.nameForm := by
        cases fs.nameForm <;> simp [componentValue, h2, h3]
      rw [hval]

/-- Folding the reducer over two pointwise-equivalent component lists gives
the same object, from any accumulator. -/
theorem foldl_mapStep_congr (mapping : FieldMapping)
    (comps comps' : List AddressComponent)
    (h : List.Forall₂ (fun c c' => c.types.head? = c'.types.head? ∧
      c.short_name = c'.short_name ∧ c.long_name = c'.long_name)
      comps comps') :
    ∀ init, comps.foldl (mapStep mapping) init =
      comps'.foldl (mapStep mapping) init := by
  induction h with
  | nil => intro init; rfl
  | cons hrel _ ih =>
    intro init
    simp only [List.foldl_cons]
    rw [mapStep_congr mapping init _ _ hrel.1 hrel.2.1 hrel.2.2]
    exact ih _

/-- Every key of the folded object is a key of the accumulator or the
target field written by some component of the list. -/
theorem mem_keys_foldl_mapStep (mapping : FieldMapping) :
    ∀ (comps : List AddressComponent) (init : List (String × String))
      (k : String),
      k ∈ (comps.foldl (mapStep mapping) init).map Prod.fst →
      k ∈ init.map Prod.fst ∨ ∃ c ∈ comps, writesField mapping c k := by
  intro comps
  induction comps with
  | nil =>
    intro init k h
    exact Or.inl h
  | cons c rest ih =>
    intro init k h
    rw [List.foldl_cons] at h
    rcases ih (mapStep mapping init c) k h with h1 | h1
    · cases hh : c.types.head? with
      | none =>
        rw [mapStep_none mapping init c hh] at h1
        exact Or.inl h1
      | some t =>
        cases hl : lookupLabel mapping t with
        | none =>
          rw [mapStep_unmapped mapping init c t hh hl] at h1
          exact Or.inl h1
        | some fs =>
          rw [mapStep_write mapping init c t fs hh hl] at h1
          rcases mem_keys_setField _ _ _ _ h1 with h2 | h2
          · exact Or.inl h2
          · exact Or.inr ⟨c, List.mem_cons_self c rest, t, fs, hh, hl, h2.symm⟩
    · obtain ⟨c', hc', hw⟩ := h1
      exact Or.inr ⟨c', List.mem_cons_of_mem c hc', hw⟩

/-- A fold over components none of which writes a given field leaves that
field of the accumulator unchanged. -/
theorem lookupField_foldl_mapStep_frame (mapping : FieldMapping) (k : String) :
    ∀ (comps : List AddressComponent) (init : List (String × String)),
      (∀ c ∈ comps, ¬ writesField mapping c k) →
      lookupField (comps.foldl (mapStep mapping) init) k =
        lookupField init k := by
  intro comps
  induction comps with
  | nil =>
    intro init _
    rfl
  | cons c rest ih =>
    intro init h
    rw [List.foldl_cons,
      ih (mapStep mapping init c) (fun c' hc' => h c' (List.mem_cons_of_mem c hc'))]
    cases hh : c.types.head? with
    | none => rw [mapStep_none mapping init c hh]
    | some t =>
      cases hl : lookupLabel mapping t with
      | none => rw [mapStep_unmapped mapping init c t hh hl]
      | some fs =>
        rw [mapStep_write mapping init c t fs hh hl]
        have hne : k ≠ fs.resultField := by
          intro he
          exact h c (List.mem_cons_self c rest) ⟨t, fs, hh, hl, he.symm⟩
        exact lookupField_setField_other _ _ _ _ hne

/-- C8: the generic mapper consults only the first entry of each
component's type-label list — replacing every component by one with the
same first label (and the same two forms) never changes the output — and a
component whose first label is not in the mapping contributes nothing. -/
theorem first_label_authoritative (mapping : FieldMapping) :
    (∀ comps comps' : List AddressComponent,
      List.Forall₂ (fun c c' => c.types.head? = c'.types.head? ∧
          c.short_name = c'.short_name ∧ c.long_name = c'.long_name)
        comps comps' →
      mappingPlaceToAddress mapping comps =
        mappingPlaceToAddress mapping comps') ∧
    (∀ (l1 l2 : List AddressComponent) (c : AddressComponent) (t : String),
      c.types.head? = some t → lookupLabel mapping t = none →
      mappingPlaceToAddress mapping (l1 ++ c :: l2) =
        mappingPlaceToAddress mapping (l1 ++ l2)) := by
  constructor
  · intro comps comps' h
    exact foldl_mapStep_congr mapping comps comps' h []
  · intro l1 l2 c t ht hl
    unfold mappingPlaceToAddress
    rw [List.foldl_append, List.foldl_append, List.foldl_cons,
      mapStep_unmapped mapping _ c t ht hl]

/-- C8 witness: appending a second type label to a route component does not
change the output, and an unmapped `country` component contributes
nothing. -/
theorem first_label_authoritative_witness :
    (List.Forall₂ (fun c c' : AddressComponent =>
        c.types.head? = c'.types.head? ∧ c.short_name = c'.short_name ∧
        c.long_name = c'.long_name)
      [⟨["route", "political"], "Baker St", "Baker Street"⟩]
      [⟨["route"], "Baker St", "Baker Street"⟩]) ∧
    mappingPlaceToAddress canonicalMapping
        [⟨["route", "political"], "Baker St", "Baker Street"⟩] =
      mappingPlaceToAddress canonicalMapping
        [⟨["route"], "Baker St", "Baker Street"⟩] ∧
    (⟨["country"], "US", "United States"⟩ : AddressComponent).types.head? =
      some "country" ∧
    lookupLabel canonicalMapping "country" = none ∧
    mappingPlaceToAddress canonicalMapping
        ([⟨["route"], "Baker St", "Baker Street"⟩] ++
          ⟨["country"], "US", "United States"⟩ :: []) =
      mappingPlaceToAddress canonicalMapping
        ([⟨["route"], "Baker St", "Baker Street"⟩] ++ []) := by
  have hf : List.Forall₂ (fun c c' : AddressComponent =>
      c.types.head? = c'.types.head? ∧ c.short_name = c'.short_name ∧
      c.long_name = c'.long_name)
      [⟨["route", "political"], "Baker St", "Baker Street"⟩]
      [⟨["route"], "Baker St", "Baker Street"⟩] :=
    List.Forall₂.cons ⟨rfl, rfl, rfl⟩ List.Forall₂.nil
  exact ⟨hf, (first_label_authoritative canonicalMapping).1 _ _ hf,
    rfl, by decide,
    (first_label_authoritative canonicalMapping).2
      [⟨["route"], "Baker St", "Baker Street"⟩] []
      ⟨["country"], "US", "United States"⟩ "country" rfl (by decide)⟩

/-- C10: every key of the generic mapper's output is the target field of a
mapping entry found under the first label of some input component, and when
several components write the same target field the last one in
service-provided order determines the retained value. -/
theorem mapper_keys_and_last_wins (mapping : FieldMapping) :
    (∀ (comps : List AddressComponent) (k : String),
      k ∈ (mappingPlaceToAddress mapping comps).map Prod.fst →
      ∃ c ∈ comps, writesField mapping c k) ∧
    (∀ (l1 l2 : List AddressComponent) (c : AddressComponent) (t : String)
        (fs : FieldSettings),
      c.types.head? = some t → lookupLabel mapping t = some fs →
      (∀ c' ∈ l2, ¬ writesField mapping c' fs.resultField) →
      lookupField (mappingPlaceToAddress mapping (l1 ++ c :: l2))
          fs.resultField =
        some (componentValue c fs.nameForm)) := by
  constructor
  · intro comps k h
    rcases mem_keys_foldl_mapStep mapping comps [] k h with h1 | h1
    · simp at h1
    · exact h1
  · intro l1 l2 c t fs ht hl hframe
    unfold mappingPlaceToAddress
    rw [List.foldl_append, List.foldl_cons,
      lookupField_foldl_mapStep_frame mapping fs.resultField l2 _ hframe,
      mapStep_write mapping _ c t fs ht hl]
    exact lookupField_setField_self _ _ _

/-- C10 witness: two route components in order; the output's key `street`
is written by a component of the list, and the retained value is the second
component's short form. -/
theorem mapper_keys_and_last_wins_witness :
    ("street" ∈ (mappingPlaceToAddress canonicalMapping
        [⟨["route"], "R1", "R1 long"⟩,
         ⟨["route"], "R2", "R2 long"⟩]).map Prod.fst) ∧
    (∃ c ∈ [(⟨["route"], "R1", "R1 long"⟩ : AddressComponent),
            ⟨["route"], "R2", "R2 long"⟩],
      writesField canonicalMapping c "street") ∧
    lookupField (mappingPlaceToAddress canonicalMapping
        ([⟨["route"], "R1", "R1 long"⟩] ++
          ⟨["route"], "R2", "R2 long"⟩ :: [])) "street" = some "R2" := by
  refine ⟨by decide, ?_, ?_⟩
  · exact (mapper_keys_and_last_wins canonicalMapping).1
      [⟨["route"], "R1", "R1 long"⟩, ⟨["route"], "R2", "R2 long"⟩]
      "street" (by decide)
  · exact (mapper_keys_and_last_wins canonicalMapping).2
      [⟨["route"], "R1", "R1 long"⟩] [] ⟨["route"], "R2", "R2 long"⟩
      "route" ⟨ComponentForm.short_name, "street"⟩ rfl (by decide)
      (by simp)

end GoogleAddress
